import Mathlib

/-!
Verification of the JSON-Patch engine in `jsonpatch.py` (python-json-patch).

The embedding models:
  * the generic value tree (`JValue`) that the engine patches: Python dicts
    become ordered association lists with unique keys, Python lists become
    `List JValue`, scalars become string/int/bool/null leaves;
  * the error taxonomy actually raised by the code: `JsonPatchException`,
    `JsonPatchConflict`, Python `ValueError` (from `int(...)` and from
    `_step`'s type check), Python `IndexError` (out-of-range list access and
    `parts[-1]` on an empty list), Python `KeyError` (missing operation
    fields) and `AssertionError` (the `test` operation);
  * path resolution (`PatchOperation.locate` / `PatchOperation._step`),
    the five operations, `JsonPatch._get_operation` dispatch,
    `JsonPatch.apply`, and the diff generator `make_patch`.

Python mutates the document in place; here each operation is a pure
function returning the rebuilt tree, and the patch driver threads the
document state explicitly so that the state left behind by a failing
operation (in particular a `move` whose `add` half fails) is observable,
exactly as it is for the Python caller.
-/

/-- A JSON value tree: Python dict / list / str / int / bool / None.
Dicts are modelled as insertion-ordered association lists; a tree coming
from real JSON has no duplicate keys. -/
inductive JValue : Type where
  | obj : List (String × JValue) → JValue
  | arr : List JValue → JValue
  | str : String → JValue
  | num : Int → JValue
  | boolean : Bool → JValue
  | null : JValue

/-- The errors the engine can raise, mirroring the exception classes used by
`jsonpatch.py`: `patchExc` is `JsonPatchException`, `conflict` is
`JsonPatchConflict`, and the remaining constructors are the built-in Python
exceptions that escape the module (`ValueError`, `IndexError`, `KeyError`,
`AssertionError`, `AttributeError`). -/
inductive JErr : Type where
  | patchExc : String → JErr
  | conflict : String → JErr
  | valueErr : String → JErr
  | indexErr : JErr
  | keyErr : String → JErr
  | assertErr : JErr
  | attrErr : JErr
deriving DecidableEq

/-- Is the error a `JsonPatchConflict`? -/
def JErr.isConflict : JErr → Bool
  | .conflict _ => true
  | _ => false

/-- Is the error a `JsonPatchException` (malformed patch)? -/
def JErr.isMalformed : JErr → Bool
  | .patchExc _ => true
  | _ => false

/-- Is the value a scalar (neither a dict nor a list)?  `_step` refuses to
step into such a value. -/
def JValue.isScalar : JValue → Bool
  | .obj _ => false
  | .arr _ => false
  | _ => true

/-- Dict lookup `d[k]` / `k in d` on the association-list model: the value at
the first matching key. -/
def lookupKey : List (String × JValue) → String → Option JValue
  | [], _ => none
  | (k, v) :: rest, key => if k = key then some v else lookupKey rest key

/-- Dict assignment `d[k] = v` when the key may be present: overwrite in
place, else append (Python dicts keep insertion order). -/
def setKey : List (String × JValue) → String → JValue → List (String × JValue)
  | [], k, v => [(k, v)]
  | (k', v') :: rest, k, v =>
    if k' = k then (k', v) :: rest else (k', v') :: setKey rest k v

/-- Dict deletion `del d[k]`: drop the first (in a real dict: only) binding
of the key. -/
def delKey : List (String × JValue) → String → List (String × JValue)
  | [], _ => []
  | (k', v') :: rest, k => if k' = k then rest else (k', v') :: delKey rest k

/-- List insertion `l.insert(k, v)` for an index already validated to lie in
`0 .. l.length` (the only way `AddOperation` calls it). -/
def insertAt (k : Nat) (v : JValue) : List JValue → List JValue
  | [] => [v]
  | a :: rest => match k with
    | 0 => v :: a :: rest
    | Nat.succ k' => a :: insertAt k' v rest

/-- Python `str.split('/')`, on the character list: every occurrence of the
separator splits, empty pieces are kept, and the empty string yields one
empty piece. -/
def splitSlashAux : List Char → List (List Char)
  | [] => [[]]
  | c :: rest =>
    if c = '/' then [] :: splitSlashAux rest
    else
      match splitSlashAux rest with
      | [] => [[c]]
      | p :: ps => (c :: p) :: ps

/-- Python `location.split('/')`. -/
def splitSlash (s : String) : List String :=
  (splitSlashAux s.data).map String.mk

/-- Python `'/'.join(parts)`, used by `make_patch` to build locations. -/
def joinSlash : List String → String
  | [] => ""
  | [p] => p
  | p :: ps => p ++ "/" ++ joinSlash ps

/-- Is the character a decimal digit? -/
def isDigitCh (c : Char) : Bool := '0' ≤ c && c ≤ '9'

/-- Value of a nonempty all-digit character list, else `none`. -/
def digitsToNat (l : List Char) : Option Nat :=
  if l = [] then none
  else if l.all isDigitCh then
    some (l.foldl (fun acc c => acc * 10 + (c.toNat - '0'.toNat)) 0)
  else none

/-- Python `int(segment)`: an optional sign followed by at least one digit;
anything else raises `ValueError`.  (Real `int` also strips whitespace and
allows some other sugar; none of that is exercised by path segments the
claims are about.) -/
def pyInt (s : String) : Except JErr Int :=
  match s.data with
  | '-' :: rest =>
    match digitsToNat rest with
    | some n => .ok (-(n : Int))
    | none => .error (.valueErr "invalid literal for int()")
  | '+' :: rest =>
    match digitsToNat rest with
    | some n => .ok ((n : Int))
    | none => .error (.valueErr "invalid literal for int()")
  | l =>
    match digitsToNat l with
    | some n => .ok ((n : Int))
    | none => .error (.valueErr "invalid literal for int()")

/-- Python list indexing: `l[i]` is valid iff `-len ≤ i < len`; a negative
`i` addresses `len + i`.  Returns the normalised non-negative index, or
`none` when the access raises `IndexError`. -/
def pyIdx (i : Int) (n : Nat) : Option Nat :=
  if 0 ≤ i then (if i < (n : Int) then some i.toNat else none)
  else (if -i ≤ (n : Int) then some ((i + (n : Int)).toNat) else none)

mutual

/-- Python deep structural equality `a == b` as used by the code (the
`test` operation's `assert` and the diff's `src[key] != dst[key]`):
dicts compare as key/value sets, lists positionally, scalars by value. -/
def jeq : JValue → JValue → Bool
  | .obj a, .obj b => Nat.beq a.length b.length && jeqFields a b
  | .arr a, .arr b => jeqArr a b
  | .str a, .str b => a == b
  | .num a, .num b => a == b
  | .boolean a, .boolean b => a == b
  | .null, .null => true
  | _, _ => false
termination_by a _ => sizeOf a
decreasing_by all_goals (simp_wf; try omega)

/-- Every binding of the first dict is matched by an equal binding of the
second. -/
def jeqFields : List (String × JValue) → List (String × JValue) → Bool
  | [], _ => true
  | (k, v) :: rest, b =>
    (match lookupKey b k with
     | some w => jeq v w
     | none => false) && jeqFields rest b
termination_by a _ => sizeOf a
decreasing_by all_goals (simp_wf; try omega)

/-- Positional equality of lists. -/
def jeqArr : List JValue → List JValue → Bool
  | [], [] => true
  | a :: as, b :: bs => jeq a b && jeqArr as bs
  | _, _ => false
termination_by a _ => sizeOf a
decreasing_by all_goals (simp_wf; try omega)

end

/-- One resolution step with `must_exist=True` (`PatchOperation._step`),
returning the child stepped into.  For a dict: return `obj[segment]`, or
`JsonPatchConflict` when the key is missing.  For a list: `int(segment)`
(`ValueError` when non-numeric); an index `≥ len` is treated as absent
(`JsonPatchConflict`); otherwise Python reads `obj[variant]`, which succeeds
for `-len ≤ variant < len` and raises `IndexError` below `-len`.  For a
scalar: `ValueError` before anything else. -/
def getSeg (v : JValue) (seg : String) : Except JErr JValue :=
  match v with
  | .obj fields =>
    match lookupKey fields seg with
    | some c => .ok c
    | none => .error (.conflict ("key " ++ seg ++ " not found"))
  | .arr items =>
    match pyInt seg with
    | .error e => .error e
    | .ok i =>
      if (items.length : Int) ≤ i then .error (.conflict ("key " ++ seg ++ " not found"))
      else
        match pyIdx i items.length with
        | some k => .ok (items.getD k .null)
        | none => .error .indexErr
  | _ => .error (.valueErr "list or dict expected")

/-- Rebuild a container after its child at `seg` was replaced by `c`.  This
is the pure image of Python's in-place mutation through the alias returned
by `_step`; it is only ever used after `getSeg v seg` succeeded. -/
def setSeg (v : JValue) (seg : String) (c : JValue) : JValue :=
  match v with
  | .obj fields => .obj (setKey fields seg c)
  | .arr items =>
    match pyInt seg with
    | .ok i =>
      match pyIdx i items.length with
      | some k => .arr (items.set k c)
      | none => v
    | .error _ => v
  | _ => v

/-- Walk `parts` like `PatchOperation.locate`: all segments but the last via
`_step` with `must_exist=True`, then hand the reached parent container and
the final segment to the operation's terminal action `fin`, rebuilding the
spine on the way out.  `parts = []` is the `parts[-1]` `IndexError` of
`locate` on an empty segment list. -/
def locAM (doc : JValue) (parts : List String)
    (fin : JValue → String → Except JErr JValue) : Except JErr JValue :=
  match parts with
  | [] => .error .indexErr
  | [last] => fin doc last
  | p :: rest =>
    match getSeg doc p with
    | .error e => .error e
    | .ok c =>
      match locAM c rest fin with
      | .error e => .error e
      | .ok c2 => .ok (setSeg doc p c2)

/-- Read-only walk over all segments (each one `_step` with
`must_exist=True`): the value located by a path, as read by `move` and
`test`. -/
def getSegs (doc : JValue) : List String → Except JErr JValue
  | [] => .ok doc
  | p :: rest =>
    match getSeg doc p with
    | .error e => .error e
    | .ok c => getSegs c rest

/-- Split a location and perform `locate`'s leading checks:
`parts.pop(0) != ''` raises `JsonPatchException`, and an empty remainder
(location `""`) makes `parts[-1]` raise `IndexError`. -/
def splitLoc (loc : String) : Except JErr (List String) :=
  match splitSlash loc with
  | [] => .error .indexErr
  | first :: rest =>
    if first = "" then
      match rest with
      | [] => .error .indexErr
      | _ => .ok rest
    else .error (.patchExc "location must starts with /")

/-- Resolve a location string and run the operation's terminal action at the
parent container it denotes. -/
def applyAtLoc (doc : JValue) (loc : String)
    (fin : JValue → String → Except JErr JValue) : Except JErr JValue :=
  match splitLoc loc with
  | .error e => .error e
  | .ok parts => locAM doc parts fin

/-- `locate` followed by reading the located value (`subobj[part]`), used by
`MoveOperation` to fetch the value and by `TestOperation`'s claim frame. -/
def getAtLoc (doc : JValue) (loc : String) : Except JErr JValue :=
  match splitLoc loc with
  | .error e => .error e
  | .ok parts => getSegs doc parts

/-- Terminal action of `RemoveOperation.apply`: final `_step` with
`must_exist=True`, then `del subobj[part]`. -/
def removeFin (parent : JValue) (last : String) : Except JErr JValue :=
  match parent with
  | .obj fields =>
    match lookupKey fields last with
    | some _ => .ok (.obj (delKey fields last))
    | none => .error (.conflict ("key " ++ last ++ " not found"))
  | .arr items =>
    match pyInt last with
    | .error e => .error e
    | .ok i =>
      if (items.length : Int) ≤ i then .error (.conflict ("key " ++ last ++ " not found"))
      else
        match pyIdx i items.length with
        | some k => .ok (.arr (items.eraseIdx k))
        | none => .error .indexErr
  | _ => .error (.valueErr "list or dict expected")

/-- Terminal action of `AddOperation.apply`: final `_step` with
`must_exist=False` (which for a list still reads `obj[variant]` when
`variant < len`, and for a scalar still raises `ValueError`), then the
insertion: a list index must satisfy `0 ≤ part ≤ len` else
`JsonPatchConflict`; a dict key must be absent else `JsonPatchConflict`. -/
def addFin (value : JValue) (parent : JValue) (last : String) : Except JErr JValue :=
  match parent with
  | .obj fields =>
    match lookupKey fields last with
    | some _ => .error (.conflict ("object " ++ last ++ " already exists"))
    | none => .ok (.obj (setKey fields last value))
  | .arr items =>
    match pyInt last with
    | .error e => .error e
    | .ok i =>
      if i < (items.length : Int) ∧ (pyIdx i items.length) = none then
        .error .indexErr
      else if (items.length : Int) < i ∨ i < 0 then
        .error (.conflict "can't insert outside of list")
      else .ok (.arr (insertAt i.toNat value items))
  | _ => .error (.valueErr "list or dict expected")

/-- Terminal action of `ReplaceOperation.apply`: final `_step` with
`must_exist=True`, the operation's own range/membership re-check, then
`subobj[part] = value`.  A negative in-range list index passes the `_step`
but fails the re-check (`part < 0`), so it raises `JsonPatchConflict`. -/
def replaceFin (value : JValue) (parent : JValue) (last : String) : Except JErr JValue :=
  match parent with
  | .obj fields =>
    match lookupKey fields last with
    | some _ => .ok (.obj (setKey fields last value))
    | none => .error (.conflict ("key " ++ last ++ " not found"))
  | .arr items =>
    match pyInt last with
    | .error e => .error e
    | .ok i =>
      if (items.length : Int) ≤ i then .error (.conflict ("key " ++ last ++ " not found"))
      else
        match pyIdx i items.length with
        | none => .error .indexErr
        | some k =>
          if (items.length : Int) < i ∨ i < 0 then
            .error (.conflict "can't replace outside of list")
          else .ok (.arr (items.set k value))
  | _ => .error (.valueErr "list or dict expected")

/-- Terminal action of `TestOperation.apply`: final `_step` with
`must_exist=True`, then `assert subobj[part] == value` — equality leaves the
document untouched, inequality raises `AssertionError`. -/
def testFin (value : JValue) (parent : JValue) (last : String) : Except JErr JValue :=
  match parent with
  | .obj fields =>
    match lookupKey fields last with
    | some w => if jeq w value then .ok parent else .error .assertErr
    | none => .error (.conflict ("key " ++ last ++ " not found"))
  | .arr items =>
    match pyInt last with
    | .error e => .error e
    | .ok i =>
      if (items.length : Int) ≤ i then .error (.conflict ("key " ++ last ++ " not found"))
      else
        match pyIdx i items.length with
        | some k => if jeq (items.getD k .null) value then .ok parent else .error .assertErr
        | none => .error .indexErr
  | _ => .error (.valueErr "list or dict expected")

/-- `RemoveOperation.apply`. -/
def removeApply (loc : String) (doc : JValue) : Except JErr JValue :=
  applyAtLoc doc loc removeFin

/-- `AddOperation.apply` (after the `value` field has been fetched). -/
def addApply (loc : String) (value : JValue) (doc : JValue) : Except JErr JValue :=
  applyAtLoc doc loc (addFin value)

/-- `ReplaceOperation.apply` (after the `value` field has been fetched). -/
def replaceApply (loc : String) (value : JValue) (doc : JValue) : Except JErr JValue :=
  applyAtLoc doc loc (replaceFin value)

/-- `TestOperation.apply` (after the `value` field has been fetched). -/
def testApply (loc : String) (value : JValue) (doc : JValue) : Except JErr JValue :=
  applyAtLoc doc loc (testFin value)

/-- An operation's source representation: the raw JSON object such as
`{'add': '/foo', 'value': 1}`, as an association list. -/
def OpObj : Type := List (String × JValue)

/-- The fixed action keys, in the iteration order of the
`JsonPatch.operations` dict built in `JsonPatch.__init__`. -/
def actionKeys : List String := ["remove", "add", "replace", "move", "test"]

/-- `JsonPatch._get_operation`'s key sniffing: the first action key present
in the operation object, together with its value (the location). -/
def findAction (op : OpObj) : Option (String × JValue) :=
  actionKeys.findSome? (fun a => (lookupKey op a).map (fun lv => (a, lv)))

/-- A location must be a string: anything else makes `location.split('/')`
raise `AttributeError` in Python. -/
def asStr : JValue → Except JErr String
  | .str s => .ok s
  | _ => .error .attrErr

/-- `{'remove': loc}`. -/
def mkRemove (loc : String) : OpObj := [("remove", .str loc)]

/-- `{'add': loc, 'value': v}`. -/
def mkAdd (loc : String) (v : JValue) : OpObj := [("add", .str loc), ("value", v)]

/-- `{'replace': loc, 'value': v}`. -/
def mkReplace (loc : String) (v : JValue) : OpObj := [("replace", .str loc), ("value", v)]

/-- `{'test': loc, 'value': v}`. -/
def mkTest (loc : String) (v : JValue) : OpObj := [("test", .str loc), ("value", v)]

/-- `{'move': loc, 'to': q}`. -/
def mkMove (loc : String) (q : String) : OpObj := [("move", .str loc), ("to", .str q)]

/-- Lift a pure operation result to the stateful view: a failing operation
raises without having mutated the document (each of remove/add/replace/test
mutates at most once, as its very last action). -/
def liftE (doc : JValue) : Except JErr JValue → JValue × Option JErr
  | .ok d => (d, none)
  | .error e => (doc, some e)

/-- `MoveOperation.apply`: locate the source (`must_exist=True`) and read
its value, apply a Remove at the source, then construct an Add at
`operation['to']` (fetched only now — after the removal) and apply it.  The
state is threaded so that a failure in the Add half leaves the removal
visible, exactly as for Python's in-place mutation. -/
def moveApplyS (locv : JValue) (op : OpObj) (doc : JValue) : JValue × Option JErr :=
  match asStr locv with
  | .error e => (doc, some e)
  | .ok loc =>
    match getAtLoc doc loc with
    | .error e => (doc, some e)
    | .ok v =>
      match removeApply loc doc with
      | .error e => (doc, some e)
      | .ok d1 =>
        match lookupKey op "to" with
        | none => (d1, some (.keyErr "to"))
        | some tov =>
          match asStr tov with
          | .error e => (d1, some e)
          | .ok toLoc =>
            match addApply toLoc v d1 with
            | .error e => (d1, some e)
            | .ok d2 => (d2, none)

/-- Dispatch one raw operation object (`JsonPatch._get_operation`) and apply
it, returning the resulting document together with the exception, if any,
that the operation raised.  For add/replace/test the `value` field is
fetched first (`KeyError` when absent), as in the Python `apply` bodies. -/
def applyOpObj (op : OpObj) (doc : JValue) : JValue × Option JErr :=
  match findAction op with
  | none => (doc, some (.patchExc "invalid operation"))
  | some (action, locv) =>
    if action = "remove" then
      match asStr locv with
      | .error e => (doc, some e)
      | .ok loc => liftE doc (removeApply loc doc)
    else if action = "add" then
      match lookupKey op "value" with
      | none => (doc, some (.keyErr "value"))
      | some v =>
        match asStr locv with
        | .error e => (doc, some e)
        | .ok loc => liftE doc (addApply loc v doc)
    else if action = "replace" then
      match lookupKey op "value" with
      | none => (doc, some (.keyErr "value"))
      | some v =>
        match asStr locv with
        | .error e => (doc, some e)
        | .ok loc => liftE doc (replaceApply loc v doc)
    else if action = "test" then
      match lookupKey op "value" with
      | none => (doc, some (.keyErr "value"))
      | some v =>
        match asStr locv with
        | .error e => (doc, some e)
        | .ok loc => liftE doc (testApply loc v doc)
    else
      moveApplyS locv op doc

/-- Did dispatch select the `move` action for this operation object? -/
def isMoveOp (op : OpObj) : Bool :=
  match findAction op with
  | some (a, _) => a == "move"
  | none => false

/-- `JsonPatch.apply`: run the operations in order against the cumulatively
mutated document; the first exception stops the run and is surfaced with
the document in whatever state the run left it. -/
def patchApply (ops : List OpObj) (doc : JValue) : JValue × Option JErr :=
  match ops with
  | [] => (doc, none)
  | op :: rest =>
    match applyOpObj op doc with
    | (d, none) => patchApply rest d
    | (d, some e) => (d, some e)

mutual

/-- `make_patch`'s `compare_values`: recurse for dict/dict and list/list,
otherwise emit a single Replace at the joined path with the new value. -/
def compareValues (path : List String) (a b : JValue) : List OpObj :=
  match a, b with
  | .obj va, .obj vb => compareDict path va vb
  | .arr va, .arr vb => compareList path va vb
  | _, _ => [mkReplace (joinSlash path) b]
termination_by sizeOf a
decreasing_by all_goals (simp_wf; try omega)

/-- `make_patch`'s `compare_dict`: for each key of `src`, a Remove when the
key left `dst`, a recursive comparison when the values differ; then an Add
for each key only in `dst`, in iteration order. -/
def compareDict (path : List String) (src dst : List (String × JValue)) : List OpObj :=
  (src.attach.flatMap (fun kv =>
    match hm : kv.val with
    | (k, v) =>
      match lookupKey dst k with
      | none => [mkRemove (joinSlash (path ++ [k]))]
      | some w => if jeq v w then [] else compareValues (path ++ [k]) v w)) ++
  dst.filterMap (fun kv =>
    if (lookupKey src kv.1).isSome then none
    else some (mkAdd (joinSlash (path ++ [kv.1])) kv.2))
termination_by sizeOf src
decreasing_by
  have h1 := List.sizeOf_lt_of_mem kv.property
  simp only [hm, Prod.mk.sizeOf_spec] at h1
  simp_wf
  omega

/-- `make_patch`'s `compare_list`: indices from `max(len src, len dst) - 1`
down to `0`; both present → recurse, only in `dst` → Add, only in `src` →
Remove. -/
def compareList (path : List String) (src dst : List JValue) : List OpObj :=
  (List.range (max src.length dst.length)).reverse.attach.flatMap (fun im =>
    if h1 : im.val < src.length then
      if h2 : im.val < dst.length then
        compareValues (path ++ [toString im.val]) (src.get ⟨im.val, h1⟩) (dst.get ⟨im.val, h2⟩)
      else [mkRemove (joinSlash (path ++ [toString im.val]))]
    else
      if h2 : im.val < dst.length then
        [mkAdd (joinSlash (path ++ [toString im.val])) (dst.get ⟨im.val, h2⟩)]
      else [])
termination_by sizeOf src
decreasing_by
  have h3 := List.sizeOf_get src ⟨im.val, h1⟩
  simp only [List.get_eq_getElem] at h3
  simp_wf
  omega

end

/-- `make_patch(src, dst)`: the list of operation objects produced by
`compare_dict([''], src, dst)`.  The Python generator presupposes that both
roots are mappings (iterating anything else derails into `TypeError`s
before an operation can be built); the non-mapping case is modelled as that
error. -/
def makePatch (src dst : JValue) : Except JErr (List OpObj) :=
  match src, dst with
  | .obj s, .obj d => .ok (compareDict [""] s d)
  | _, _ => .error (.valueErr "mapping roots expected")

/-- Overwriting a key with the very value it already holds is the
identity. -/
theorem setKey_lookup_self (fields : List (String × JValue)) (k : String) (c : JValue)
    (h : lookupKey fields k = some c) : setKey fields k c = fields := by
  induction fields with
  | nil => simp [lookupKey] at h
  | cons kv rest ih =>
    obtain ⟨k', v'⟩ := kv
    by_cases hk : k' = k
    · subst hk
      simp [lookupKey] at h
      simp [setKey, h]
    · simp [lookupKey, hk] at h
      simp [setKey, hk, ih h]

/-- Writing back the element a list already holds at `k` is the identity. -/
theorem set_getD_self (l : List JValue) (k : Nat) (d : JValue)
    (h : k < l.length) : l.set k (l.getD k d) = l := by
  induction l generalizing k with
  | nil => simp at h
  | cons a rest ih =>
    cases k with
    | zero => simp [List.getD]
    | succ k' =>
      simp only [List.length_cons, Nat.succ_lt_succ_iff] at h
      simp only [List.getD_cons_succ, List.set_cons_succ]
      rw [ih k' h]

/-- A valid Python index normalises below the length. -/
theorem pyIdx_lt (i : Int) (n : Nat) (k : Nat) (h : pyIdx i n = some k) : k < n := by
  unfold pyIdx at h
  split at h
  · split at h
    · simp at h; omega
    · simp at h
  · split at h
    · simp at h; omega
    · simp at h

/-- Rebuilding a container with the child that was just read out of it is
the identity: the pure counterpart of "stepping through an alias does not
change the tree". -/
theorem setSeg_getSeg (v : JValue) (s : String) (c : JValue)
    (h : getSeg v s = .ok c) : setSeg v s c = v := by
  cases v with
  | obj fields =>
    unfold getSeg at h
    unfold setSeg
    cases hl : lookupKey fields s with
    | none => simp [hl] at h
    | some w =>
      simp [hl] at h
      subst h
      simp [setKey_lookup_self fields s w hl]
  | arr items =>
    unfold getSeg at h
    unfold setSeg
    cases hi : pyInt s with
    | error e => simp [hi] at h
    | ok i =>
      simp only [hi] at h ⊢
      split at h
      · simp at h
      · cases hk : pyIdx i items.length with
        | none => simp [hk] at h
        | some k =>
          simp [hk] at h ⊢
          subst h
          have hlt := pyIdx_lt i items.length k hk
          have hg : items[k]?.getD JValue.null = items.getD k JValue.null := by
            simp [List.getD]
          rw [hg, set_getD_self items k _ hlt]
  | str s' => simp [getSeg] at h
  | num n' => simp [getSeg] at h
  | boolean b' => simp [getSeg] at h
  | null => simp [getSeg] at h

/-- Erasing the last position is `dropLast`. -/
theorem eraseIdx_length_sub_one (l : List JValue) :
    l.eraseIdx (l.length - 1) = l.dropLast := by
  induction l with
  | nil => rfl
  | cons a rest ih =>
    cases rest with
    | nil => rfl
    | cons b t =>
      have : (a :: b :: t).length - 1 = ((b :: t).length - 1) + 1 := by
        simp
      rw [this]
      simp only [List.eraseIdx]
      rw [ih]
      rfl

/-- `splitLoc` only succeeds with a nonempty segment list. -/
theorem splitLoc_ne_nil (loc : String) (parts : List String)
    (h : splitLoc loc = .ok parts) : parts ≠ [] := by
  unfold splitLoc at h
  cases hs : splitSlash loc with
  | nil => simp [hs] at h
  | cons first rest =>
    simp only [hs] at h
    split at h
    · cases rest with
      | nil => simp at h
      | cons r rs =>
        simp at h
        subst h
        simp
    · simp at h

/-- When the final `_step` read succeeds with value `w`, the terminal action
of `test` compares exactly that value and leaves the parent as it was. -/
theorem testFin_getSeg (parent : JValue) (p : String) (w value : JValue)
    (h : getSeg parent p = .ok w) :
    testFin value parent p = if jeq w value then .ok parent else .error .assertErr := by
  cases parent with
  | obj fields =>
    unfold getSeg at h
    unfold testFin
    cases hl : lookupKey fields p with
    | none => simp [hl] at h
    | some c =>
      simp [hl] at h ⊢
      subst h
      rfl
  | arr items =>
    unfold getSeg at h
    unfold testFin
    cases hi : pyInt p with
    | error e => simp [hi] at h
    | ok i =>
      simp only [hi] at h ⊢
      split at h
      · simp at h
      · rename_i hge
        simp only [if_neg hge]
        cases hk : pyIdx i items.length with
        | none => simp [hk] at h
        | some k =>
          simp [hk] at h ⊢
          subst h
          rfl
  | str s' => simp [getSeg] at h
  | num n' => simp [getSeg] at h
  | boolean b' => simp [getSeg] at h
  | null => simp [getSeg] at h

/-- Walking a resolvable path with the `test` terminal action compares the
located value and rebuilds the document unchanged. -/
theorem locAM_test (parts : List String) (doc w value : JValue)
    (hne : parts ≠ []) (h : getSegs doc parts = .ok w) :
    locAM doc parts (testFin value) =
      if jeq w value then .ok doc else .error .assertErr := by
  induction parts generalizing doc with
  | nil => exact absurd rfl hne
  | cons p rest ih =>
    cases rest with
    | nil =>
      unfold getSegs at h
      cases hg : getSeg doc p with
      | error e => simp [hg, getSegs] at h
      | ok c =>
        simp [hg, getSegs] at h
        subst h
        unfold locAM
        exact testFin_getSeg doc p c value hg
    | cons q rest' =>
      unfold getSegs at h
      cases hg : getSeg doc p with
      | error e => simp [hg] at h
      | ok c =>
        simp only [hg] at h
        unfold locAM
        simp only [hg]
        rw [ih c (by simp) h]
        by_cases hj : jeq w value = true
        · simp only [if_pos hj]
          rw [setSeg_getSeg doc p c hg]
        · simp only [if_neg hj]

/-- A successfully applied prefix lets the rest of the patch run from the
document it produced. -/
theorem patchApply_append (pre rest : List OpObj) (doc d : JValue)
    (h : patchApply pre doc = (d, none)) :
    patchApply (pre ++ rest) doc = patchApply rest d := by
  induction pre generalizing doc with
  | nil =>
    simp only [patchApply] at h
    simp only [List.nil_append]
    rw [(Prod.mk.injEq _ _ _ _).mp h |>.1]
  | cons op pre' ih =>
    simp only [patchApply, List.cons_append] at h ⊢
    cases ha : applyOpObj op doc with
    | mk d1 oe =>
      cases oe with
      | none => simp only [ha] at h; exact ih d1 h
      | some e => simp only [ha] at h; exact absurd h (by simp)

/-- Dispatch can only select one of the five fixed action keys. -/
theorem findAction_mem (op : OpObj) (a : String) (lv : JValue)
    (h : findAction op = some (a, lv)) :
    a = "remove" ∨ a = "add" ∨ a = "replace" ∨ a = "move" ∨ a = "test" := by
  unfold findAction actionKeys at h
  cases h1 : lookupKey op "remove" with
  | some v => simp [List.findSome?, h1] at h; exact Or.inl h.1.symm
  | none =>
  cases h2 : lookupKey op "add" with
  | some v => simp [List.findSome?, h1, h2] at h; exact Or.inr (Or.inl h.1.symm)
  | none =>
  cases h3 : lookupKey op "replace" with
  | some v => simp [List.findSome?, h1, h2, h3] at h; exact Or.inr (Or.inr (Or.inl h.1.symm))
  | none =>
  cases h4 : lookupKey op "move" with
  | some v =>
    simp [List.findSome?, h1, h2, h3, h4] at h
    exact Or.inr (Or.inr (Or.inr (Or.inl h.1.symm)))
  | none =>
  cases h5 : lookupKey op "test" with
  | some v =>
    simp [List.findSome?, h1, h2, h3, h4, h5] at h
    exact Or.inr (Or.inr (Or.inr (Or.inr h.1.symm)))
  | none => simp [List.findSome?, h1, h2, h3, h4, h5] at h

/-- A failing `remove`/`add`/`replace`/`test` raises before its single
mutation point: the document is exactly the one passed in.  (Only `move`
can fail while leaving a partial mutation behind.) -/
theorem applyOpObj_fail_stable (op : OpObj) (doc d' : JValue) (e : JErr)
    (hm : isMoveOp op = false) (h : applyOpObj op doc = (d', some e)) : d' = doc := by
  unfold applyOpObj at h
  split at h
  · simp at h
    exact h.1.symm
  · rename_i a lv hf
    have hmem := findAction_mem op a lv hf
    rcases hmem with h5 | h5 | h5 | h5 | h5 <;> subst h5
    · rw [if_pos rfl] at h
      cases hs : asStr lv with
      | error ee => simp only [hs] at h; simp at h; exact h.1.symm
      | ok loc =>
        simp only [hs] at h
        unfold liftE at h
        cases hr : removeApply loc doc with
        | ok dd => simp only [hr] at h; simp at h
        | error ee => simp only [hr] at h; simp at h; exact h.1.symm
    · rw [if_neg (by decide), if_pos rfl] at h
      cases hv : lookupKey op "value" with
      | none => simp only [hv] at h; simp at h; exact h.1.symm
      | some v =>
        simp only [hv] at h
        cases hs : asStr lv with
        | error ee => simp only [hs] at h; simp at h; exact h.1.symm
        | ok loc =>
          simp only [hs] at h
          unfold liftE at h
          cases hr : addApply loc v doc with
          | ok dd => simp only [hr] at h; simp at h
          | error ee => simp only [hr] at h; simp at h; exact h.1.symm
    · rw [if_neg (by decide), if_neg (by decide), if_pos rfl] at h
      cases hv : lookupKey op "value" with
      | none => simp only [hv] at h; simp at h; exact h.1.symm
      | some v =>
        simp only [hv] at h
        cases hs : asStr lv with
        | error ee => simp only [hs] at h; simp at h; exact h.1.symm
        | ok loc =>
          simp only [hs] at h
          unfold liftE at h
          cases hr : replaceApply loc v doc with
          | ok dd => simp only [hr] at h; simp at h
          | error ee => simp only [hr] at h; simp at h; exact h.1.symm
    · unfold isMoveOp at hm
      rw [hf] at hm
      simp at hm
    · rw [if_neg (by decide), if_neg (by decide), if_neg (by decide),
        if_pos rfl] at h
      cases hv : lookupKey op "value" with
      | none => simp only [hv] at h; simp at h; exact h.1.symm
      | some v =>
        simp only [hv] at h
        cases hs : asStr lv with
        | error ee => simp only [hs] at h; simp at h; exact h.1.symm
        | ok loc =>
          simp only [hs] at h
          unfold liftE at h
          cases hr : testApply loc v doc with
          | ok dd => simp only [hr] at h; simp at h
          | error ee => simp only [hr] at h; simp at h; exact h.1.symm

set_option maxRecDepth 4000 in
unseal compareValues compareDict compareList jeq jeqFields jeqArr in
/-- C1: the claimed round trip fails on the code.  For `src = {"a": []}` and
`dst = {"a": [1, 2]}`, `make_patch` emits `add /a/1` before `add /a/0`
(descending indices), and applying that patch to `src` aborts with
`JsonPatchConflict` on the very first operation (insert at index 1 into an
empty list), leaving the document equal to `src`, which is not deeply equal
to `dst`. -/
theorem make_patch_round_trip_fails_C1 :
    makePatch (.obj [("a", .arr [])]) (.obj [("a", .arr [.num 1, .num 2])]) =
      .ok [mkAdd "/a/1" (.num 2), mkAdd "/a/0" (.num 1)] ∧
    patchApply [mkAdd "/a/1" (.num 2), mkAdd "/a/0" (.num 1)] (.obj [("a", .arr [])]) =
      (.obj [("a", .arr [])], some (.conflict "can't insert outside of list")) ∧
    jeq (.obj [("a", .arr [])]) (.obj [("a", .arr [.num 1, .num 2])]) = false :=
  ⟨rfl, rfl, rfl⟩

set_option maxRecDepth 4000 in
unseal compareValues compareDict compareList jeq jeqFields jeqArr in
/-- C2: `compare_list` does iterate `max(len src, len dst) - 1 .. 0`
descending, yielding Adds for indices only in `dst`; but the claim that
every emitted operation then resolves successfully is false: comparing the
lists `[]` and `[1, 2]` under key `a` yields `add /a/1` then `add /a/0`,
and the first Add fails with `JsonPatchConflict` because index 1 exceeds
the length of the still-empty list. -/
theorem compare_list_descending_adds_fail_C2 :
    compareList ["", "a"] [] [.num 1, .num 2] =
      [mkAdd "/a/1" (.num 2), mkAdd "/a/0" (.num 1)] ∧
    patchApply (compareList ["", "a"] [] [.num 1, .num 2]) (.obj [("a", .arr [])]) =
      (.obj [("a", .arr [])], some (.conflict "can't insert outside of list")) :=
  ⟨rfl, rfl⟩

/-- A Python list access raises `IndexError` exactly outside
`-n ≤ i < n`. -/
theorem pyIdx_eq_none_iff (i : Int) (n : Nat) :
    pyIdx i n = none ↔ ((n : Int) ≤ i ∨ i < -(n : Int)) := by
  unfold pyIdx
  split_ifs with h1 h2 h3 <;> simp <;> omega

/-- A non-negative in-range index normalises to itself. -/
theorem pyIdx_nonneg (i : Int) (n : Nat) (h0 : 0 ≤ i) (h1 : i < (n : Int)) :
    pyIdx i n = some i.toNat := by
  unfold pyIdx
  rw [if_pos h0, if_pos h1]

/-- A negative in-range index normalises to `n + i`. -/
theorem pyIdx_neg (i : Int) (n : Nat) (h0 : i < 0) (h1 : -(n : Int) ≤ i) :
    pyIdx i n = some ((i + (n : Int)).toNat) := by
  unfold pyIdx
  rw [if_neg (by omega), if_pos (by omega)]

/-- C3 counterexample: an Add whose resolved parent is a Scalar raises
`ValueError` (from `_step`'s type check during the final resolution step),
not the claimed `JsonPatchConflict`: adding at `/a/b` in `{"a": 1}`. -/
theorem add_scalar_parent_not_conflict_C3_cx :
    applyOpObj (mkAdd "/a/b" (.num 2)) (.obj [("a", .num 1)]) =
      (.obj [("a", .num 1)], some (.valueErr "list or dict expected")) ∧
    (JErr.valueErr "list or dict expected").isConflict = false :=
  ⟨rfl, rfl⟩

/-- C3 (amended): for an Add whose resolved parent is a Sequence and whose
terminal segment parses to the integer `k`, the insertion succeeds iff
`0 ≤ k ≤ length` (inserting at `k`, appending at `length`), raises
`JsonPatchConflict` for `-length ≤ k < 0` or `k > length`, and raises
`IndexError` for `k < -length`; for an Object parent it raises
`JsonPatchConflict` iff the key is present, else binds it; a Scalar parent
raises `ValueError` during resolution, not Conflict. -/
theorem add_terminal_semantics_C3 :
    (∀ (items : List JValue) (seg : String) (k : Int) (v : JValue),
      pyInt seg = .ok k →
      addFin v (.arr items) seg =
        if k < -(items.length : Int) then .error .indexErr
        else if 0 ≤ k ∧ k ≤ (items.length : Int) then
          .ok (.arr (insertAt k.toNat v items))
        else .error (.conflict "can't insert outside of list")) ∧
    (∀ (fields : List (String × JValue)) (seg : String) (v : JValue),
      ((lookupKey fields seg).isSome →
        addFin v (.obj fields) seg =
          .error (.conflict ("object " ++ seg ++ " already exists"))) ∧
      (lookupKey fields seg = none →
        addFin v (.obj fields) seg = .ok (.obj (setKey fields seg v)))) ∧
    (∀ (w : JValue) (seg : String) (v : JValue), w.isScalar = true →
      addFin v w seg = .error (.valueErr "list or dict expected")) := by
  refine ⟨?_, ?_, ?_⟩
  · intro items seg k v hk
    simp only [addFin, hk]
    by_cases h1 : k < -(items.length : Int)
    · rw [if_pos ⟨by omega, (pyIdx_eq_none_iff k items.length).mpr (Or.inr h1)⟩,
        if_pos h1]
    · by_cases h2 : 0 ≤ k ∧ k ≤ (items.length : Int)
      · rw [if_neg (fun hc => by
          rw [pyIdx_eq_none_iff] at hc
          omega), if_neg (by omega), if_neg h1, if_pos h2]
      · rw [if_neg (fun hc => by
          rw [pyIdx_eq_none_iff] at hc
          omega), if_pos (by omega), if_neg h1, if_neg h2]
  · intro fields seg v
    constructor
    · intro hs
      cases hl : lookupKey fields seg with
      | none => rw [hl] at hs; simp at hs
      | some w => simp only [addFin, hl]
    · intro hn
      simp only [addFin, hn]
  · intro w seg v hs
    cases w <;> simp [JValue.isScalar] at hs <;> rfl

/-- C3 witness: inserting 5 at index 1 of the one-element list `[null]`
appends it. -/
theorem add_terminal_semantics_C3_witness :
    addFin (.num 5) (.arr [.null]) "1" = .ok (.arr [.null, .num 5]) := by
  have h := add_terminal_semantics_C3.1 [.null] "1" 1 (.num 5) rfl
  rw [h]
  rfl

/-- Dispatching `{'remove': p}` runs `RemoveOperation.apply`. -/
theorem applyOpObj_mkRemove (p : String) (doc : JValue) :
    applyOpObj (mkRemove p) doc = liftE doc (removeApply p doc) := rfl

/-- Dispatching `{'add': q, 'value': v}` runs `AddOperation.apply`. -/
theorem applyOpObj_mkAdd (q : String) (v : JValue) (doc : JValue) :
    applyOpObj (mkAdd q v) doc = liftE doc (addApply q v doc) := rfl

/-- Dispatching `{'move': p, 'to': q}` runs `MoveOperation.apply`. -/
theorem applyOpObj_mkMove (p q : String) (doc : JValue) :
    applyOpObj (mkMove p q) doc = moveApplyS (.str p) (mkMove p q) doc := rfl

/-- The `to` field of a move object. -/
theorem lookupKey_mkMove_to (p q : String) :
    lookupKey (mkMove p q) "to" = some (.str q) := rfl

/-- C4: applying a Move with source `p` and destination `q` is: resolve `p`
with `must_exist=True` and read the value `v` there (any failure is the
move's failure, document untouched); then run exactly the two-operation
patch `[{'remove': p}, {'add': q, 'value': v}]` — so the Add re-resolves
`q` against the document produced by the Remove. -/
theorem move_is_remove_then_add_C4 (doc : JValue) (p q : String) :
    applyOpObj (mkMove p q) doc =
      match getAtLoc doc p with
      | .error e => (doc, some e)
      | .ok v => patchApply [mkRemove p, mkAdd q v] doc := by
  rw [applyOpObj_mkMove]
  unfold moveApplyS
  simp only [asStr]
  cases hg : getAtLoc doc p with
  | error e => rfl
  | ok v =>
    cases hr : removeApply p doc with
    | error e =>
      simp only [patchApply, applyOpObj_mkRemove, hr, liftE]
    | ok d1 =>
      simp only [patchApply, applyOpObj_mkRemove, hr, liftE, lookupKey_mkMove_to, asStr]
      cases ha : addApply q v d1 with
      | error e => simp only [patchApply, applyOpObj_mkAdd, ha, liftE]
      | ok d2 => simp only [patchApply, applyOpObj_mkAdd, ha, liftE]

/-- C5: for a Test whose path resolves to the value `w`: if `w` deep-equals
the expected value the operation succeeds and the document is returned
unchanged; otherwise it raises `AssertionError`, and that failure aborts
the whole patch run immediately (no recovery), with the document still
unchanged. -/
theorem test_semantics_C5 (doc : JValue) (loc : String) (v w : JValue)
    (h : getAtLoc doc loc = .ok w) :
    (jeq w v = true → applyOpObj (mkTest loc v) doc = (doc, none)) ∧
    (jeq w v = false →
      applyOpObj (mkTest loc v) doc = (doc, some .assertErr) ∧
      ∀ rest : List OpObj,
        patchApply (mkTest loc v :: rest) doc = (doc, some .assertErr)) := by
  have hd : applyOpObj (mkTest loc v) doc = liftE doc (testApply loc v doc) := rfl
  unfold getAtLoc at h
  cases hs : splitLoc loc with
  | error e => rw [hs] at h; simp at h
  | ok parts =>
    rw [hs] at h
    have hne := splitLoc_ne_nil loc parts hs
    have hl := locAM_test parts doc w v hne h
    have ht : testApply loc v doc = locAM doc parts (testFin v) := by
      unfold testApply applyAtLoc
      rw [hs]
    constructor
    · intro hj
      rw [hd, ht, hl, if_pos hj]
      rfl
    · intro hj
      have h2 : applyOpObj (mkTest loc v) doc = (doc, some .assertErr) := by
        rw [hd, ht, hl, if_neg (by simp [hj])]
        rfl
      refine ⟨h2, fun rest => ?_⟩
      simp only [patchApply, h2]

unseal jeq jeqFields jeqArr in
/-- C5 witness: testing `/foo` for `"bar"` in `{"foo": "bar"}` succeeds and
leaves the document unchanged. -/
theorem test_semantics_C5_witness :
    applyOpObj (mkTest "/foo" (.str "bar")) (.obj [("foo", .str "bar")]) =
      (.obj [("foo", .str "bar")], none) :=
  (test_semantics_C5 (.obj [("foo", .str "bar")]) "/foo" (.str "bar")
    (.str "bar") rfl).1 rfl

/-- C6 counterexample: with zero successful prior operations, the failing
move `{'move': '/a', 'to': '/b/c'}` on `{"a": 1}` leaves the document as
`{}` — its Remove half already ran — not in the claimed state produced by
the first `i-1` operations. -/
theorem failed_move_mutates_C6_cx :
    patchApply [mkMove "/a" "/b/c"] (.obj [("a", .num 1)]) =
      (.obj [], some (.conflict "key b not found")) ∧
    JValue.obj [] ≠ JValue.obj [("a", .num 1)] :=
  ⟨rfl, by simp⟩

/-- C6 (amended): the first failing operation aborts `JsonPatch.apply`
immediately — no later operation is attempted, and its exception surfaces —
with the document in the state after the first `i-1` operations as possibly
further mutated by the failing operation itself: every operation other than
a dispatched `move` leaves the document unchanged when it fails, while a
failed `move` may leave its source removal applied. -/
theorem first_failure_aborts_C6 (pre post : List OpObj) (op : OpObj)
    (doc d d' : JValue) (e : JErr)
    (h1 : patchApply pre doc = (d, none))
    (h2 : applyOpObj op d = (d', some e)) :
    patchApply (pre ++ op :: post) doc = (d', some e) ∧
    (isMoveOp op = false → d' = d) := by
  constructor
  · rw [patchApply_append pre (op :: post) doc d h1]
    simp only [patchApply, h2]
  · intro hm
    exact applyOpObj_fail_stable op d d' e hm h2

/-- C6 witness: in `[remove /x, remove /y]` on `{}` the first remove fails,
the second is never attempted, and the document is unchanged. -/
theorem first_failure_aborts_C6_witness :
    patchApply [mkRemove "/x", mkRemove "/y"] (.obj []) =
      (.obj [], some (.conflict "key x not found")) :=
  (first_failure_aborts_C6 [] [mkRemove "/y"] (mkRemove "/x") (.obj [])
    (.obj []) (.obj []) (.conflict "key x not found") rfl rfl).1

/-- C7: `_get_operation` key sniffing.  An operation object in which none of
the five fixed action keys is present raises `JsonPatchException` during
dispatch, before the document is touched; and when exactly one action key is
present, dispatch selects precisely that key and its value. -/
theorem dispatch_by_action_key_C7 (op : OpObj) (doc : JValue) :
    ((∀ b ∈ actionKeys, lookupKey op b = none) →
      applyOpObj op doc = (doc, some (.patchExc "invalid operation"))) ∧
    (∀ (a : String) (lv : JValue), a ∈ actionKeys → lookupKey op a = some lv →
      (∀ b ∈ actionKeys, b ≠ a → lookupKey op b = none) →
      findAction op = some (a, lv)) := by
  constructor
  · intro hn
    have h1 := hn "remove" (by simp [actionKeys])
    have h2 := hn "add" (by simp [actionKeys])
    have h3 := hn "replace" (by simp [actionKeys])
    have h4 := hn "move" (by simp [actionKeys])
    have h5 := hn "test" (by simp [actionKeys])
    have hfa : findAction op = none := by
      unfold findAction actionKeys
      simp [List.findSome?, h1, h2, h3, h4, h5]
    unfold applyOpObj
    rw [hfa]
  · intro a lv hmem hsome hothers
    have hcase : a = "remove" ∨ a = "add" ∨ a = "replace" ∨ a = "move" ∨ a = "test" := by
      simpa [actionKeys] using hmem
    unfold findAction actionKeys
    rcases hcase with rfl | rfl | rfl | rfl | rfl
    · simp [List.findSome?, hsome]
    · simp [List.findSome?, hsome,
        hothers "remove" (by simp [actionKeys]) (by decide)]
    · simp [List.findSome?, hsome,
        hothers "remove" (by simp [actionKeys]) (by decide),
        hothers "add" (by simp [actionKeys]) (by decide)]
    · simp [List.findSome?, hsome,
        hothers "remove" (by simp [actionKeys]) (by decide),
        hothers "add" (by simp [actionKeys]) (by decide),
        hothers "replace" (by simp [actionKeys]) (by decide)]
    · simp [List.findSome?, hsome,
        hothers "remove" (by simp [actionKeys]) (by decide),
        hothers "add" (by simp [actionKeys]) (by decide),
        hothers "replace" (by simp [actionKeys]) (by decide),
        hothers "move" (by simp [actionKeys]) (by decide)]

/-- C7 witness: `{'test': '/x', 'value': null}` has exactly the `test`
action key present and dispatches to it; an empty operation object has none
and raises the malformed-patch error with the document untouched. -/
theorem dispatch_by_action_key_C7_witness :
    findAction (mkTest "/x" .null) = some ("test", .str "/x") ∧
    applyOpObj ([] : OpObj) (.obj []) =
      (.obj [], some (.patchExc "invalid operation")) := by
  constructor
  · refine (dispatch_by_action_key_C7 (mkTest "/x" .null) .null).2 "test" (.str "/x")
      (by simp [actionKeys]) rfl ?_
    intro b hb hne
    have hcase : b = "remove" ∨ b = "add" ∨ b = "replace" ∨ b = "move" ∨ b = "test" := by
      simpa [actionKeys] using hb
    rcases hcase with rfl | rfl | rfl | rfl | rfl
    · rfl
    · rfl
    · rfl
    · rfl
    · exact absurd rfl hne
  · refine (dispatch_by_action_key_C7 ([] : OpObj) (.obj [])).1 ?_
    intro b _
    rfl

/-- C8 counterexample: removing at `/a/x` in `{"a": [1]}` hits a
non-numeric segment against a Sequence; `int('x')` raises `ValueError`,
which is not a `JsonPatchConflict` as the claim asserts. -/
theorem resolution_error_kinds_C8_cx :
    applyOpObj (mkRemove "/a/x") (.obj [("a", .arr [.num 1])]) =
      (.obj [("a", .arr [.num 1])], some (.valueErr "invalid literal for int()")) ∧
    (JErr.valueErr "invalid literal for int()").isConflict = false :=
  ⟨rfl, rfl⟩

/-- C8 (amended): a non-numeric segment against a Sequence and a resolution
step reaching a Scalar container raise `ValueError` — a different kind from
`JsonPatchConflict`; whereas a missing key, a missing (too large) index, an
out-of-range insertion or replacement index, and an add onto an
already-present key do raise `JsonPatchConflict`. -/
theorem resolution_error_kinds_C8 :
    (∀ (items : List JValue) (seg m : String),
      pyInt seg = .error (.valueErr m) →
      getSeg (.arr items) seg = .error (.valueErr m)) ∧
    (∀ (w : JValue) (seg : String), w.isScalar = true →
      getSeg w seg = .error (.valueErr "list or dict expected")) ∧
    (∀ m : String, (JErr.valueErr m).isConflict = false) ∧
    (∀ (fields : List (String × JValue)) (seg : String),
      lookupKey fields seg = none →
      getSeg (.obj fields) seg =
        .error (.conflict ("key " ++ seg ++ " not found"))) ∧
    (∀ (items : List JValue) (seg : String) (k : Int),
      pyInt seg = .ok k → (items.length : Int) ≤ k →
      getSeg (.arr items) seg =
        .error (.conflict ("key " ++ seg ++ " not found"))) ∧
    (∀ (items : List JValue) (seg : String) (k : Int) (v : JValue),
      pyInt seg = .ok k →
      ((items.length : Int) < k ∨ (k < 0 ∧ -(items.length : Int) ≤ k)) →
      addFin v (.arr items) seg = .error (.conflict "can't insert outside of list")) ∧
    (∀ (items : List JValue) (seg : String) (k : Int) (v : JValue),
      pyInt seg = .ok k → (items.length : Int) ≤ k →
      replaceFin v (.arr items) seg =
        .error (.conflict ("key " ++ seg ++ " not found"))) ∧
    (∀ (fields : List (String × JValue)) (seg : String) (v : JValue),
      (lookupKey fields seg).isSome →
      addFin v (.obj fields) seg =
        .error (.conflict ("object " ++ seg ++ " already exists"))) ∧
    (∀ m : String, (JErr.conflict m).isConflict = true) := by
  refine ⟨?_, ?_, fun m => rfl, ?_, ?_, ?_, ?_, ?_, fun m => rfl⟩
  · intro items seg m h
    simp only [getSeg, h]
  · intro w seg hs
    cases w <;> simp [JValue.isScalar] at hs <;> rfl
  · intro fields seg h
    simp only [getSeg, h]
  · intro items seg k hk hge
    simp only [getSeg, hk]
    rw [if_pos hge]
  · intro items seg k v hk hout
    simp only [addFin, hk]
    rw [if_neg (fun hc => by
      rw [pyIdx_eq_none_iff] at hc
      omega), if_pos (by omega)]
  · intro items seg k v hk hge
    simp only [replaceFin, hk]
    rw [if_pos hge]
  · intro fields seg v hs
    cases hl : lookupKey fields seg with
    | none => rw [hl] at hs; simp at hs
    | some w => simp only [addFin, hl]

/-- C8 witness: `int('x')` fails, so stepping by segment `x` into the empty
list raises `ValueError`. -/
theorem resolution_error_kinds_C8_witness :
    getSeg (.arr []) "x" = .error (.valueErr "invalid literal for int()") :=
  resolution_error_kinds_C8.1 [] "x" "invalid literal for int()" rfl

/-- C9 counterexample: a remove at the location slash minus-one on
`[1, 2, 3]` does not fail with `JsonPatchConflict` — `int` parses the
segment `-1` and Python's negative indexing makes it delete the last
element. -/
theorem negative_index_remove_succeeds_C9_cx :
    applyOpObj (mkRemove "/-1") (.arr [.num 1, .num 2, .num 3]) =
      (.arr [.num 1, .num 2], none) := rfl

/-- C9 (amended): a Sequence segment is parsed as a (possibly signed)
integer `i`; resolution with `must_exist=True` yields `JsonPatchConflict`
for `i ≥ length`, the element at `i` for `0 ≤ i < length`, the element at
`length + i` for `-length ≤ i < 0`, and an uncaught `IndexError` for
`i < -length`; hence a Remove whose terminal segment is `-1` deletes the
last element of a nonempty list instead of failing. -/
theorem sequence_index_resolution_C9 :
    (∀ (items : List JValue) (seg : String) (i : Int),
      pyInt seg = .ok i →
      (((items.length : Int) ≤ i →
        getSeg (.arr items) seg =
          .error (.conflict ("key " ++ seg ++ " not found"))) ∧
      (0 ≤ i → i < (items.length : Int) →
        getSeg (.arr items) seg = .ok (items.getD i.toNat .null)) ∧
      (i < 0 → -(items.length : Int) ≤ i →
        getSeg (.arr items) seg =
          .ok (items.getD ((i + (items.length : Int)).toNat) .null)) ∧
      (i < -(items.length : Int) →
        getSeg (.arr items) seg = .error .indexErr))) ∧
    (∀ items : List JValue, items ≠ [] →
      removeApply "/-1" (.arr items) = .ok (.arr items.dropLast)) := by
  constructor
  · intro items seg i hk
    refine ⟨?_, ?_, ?_, ?_⟩
    · intro hge
      simp only [getSeg, hk]
      rw [if_pos hge]
    · intro h0 h1
      simp only [getSeg, hk]
      rw [if_neg (by omega), pyIdx_nonneg i _ h0 h1]
    · intro h0 h1
      simp only [getSeg, hk]
      rw [if_neg (by omega), pyIdx_neg i _ h0 h1]
    · intro hlt
      simp only [getSeg, hk]
      rw [if_neg (by omega),
        (pyIdx_eq_none_iff i items.length).mpr (Or.inr hlt)]
  · intro items hne
    have h1 : removeApply "/-1" (.arr items) = removeFin (.arr items) "-1" := rfl
    rw [h1]
    cases items with
    | nil => exact absurd rfl hne
    | cons a t =>
      unfold removeFin
      have hp : pyInt "-1" = .ok (-1) := rfl
      simp only [hp]
      rw [if_neg (by omega)]
      rw [pyIdx_neg (-1) (a :: t).length (by omega) (by
        simp only [List.length_cons]
        omega)]
      have h2 : ((-1 : Int) + ((a :: t).length : Int)).toNat = (a :: t).length - 1 := by
        simp only [List.length_cons]
        omega
      rw [h2]
      show Except.ok (JValue.arr ((a :: t).eraseIdx ((a :: t).length - 1))) =
        Except.ok (JValue.arr (a :: t).dropLast)
      rw [eraseIdx_length_sub_one]

/-- C9 witness: removing the segment `-1` from the one-element list `[7]`
empties it. -/
theorem sequence_index_resolution_C9_witness :
    removeApply "/-1" (.arr [.num 7]) = .ok (.arr []) := by
  have h := sequence_index_resolution_C9.2 [.num 7] (by simp)
  simpa using h

/-- C10: for every document and every operation kind, an empty location
splits into `['']`, the leading empty segment is popped, and `locate` then
indexes `parts[-1]` on an empty list — an `IndexError` that is neither the
malformed-patch `JsonPatchException` nor a `JsonPatchConflict`, raised
before the document is touched. -/
theorem empty_path_index_error_C10 (doc v : JValue) (q : String) :
    applyOpObj (mkRemove "") doc = (doc, some .indexErr) ∧
    applyOpObj (mkAdd "" v) doc = (doc, some .indexErr) ∧
    applyOpObj (mkReplace "" v) doc = (doc, some .indexErr) ∧
    applyOpObj (mkMove "" q) doc = (doc, some .indexErr) ∧
    applyOpObj (mkTest "" v) doc = (doc, some .indexErr) ∧
    JErr.indexErr.isConflict = false ∧
    JErr.indexErr.isMalformed = false :=
  ⟨rfl, rfl, rfl, rfl, rfl, rfl, rfl⟩
